import Mathlib

/-!
Verification of the kb-hall analog-keyboard bridge (src/lib.rs).

The shared state `AnalogKeyboard` is embedded as a record; the Rust
`Arc<Mutex<_>>` fields become plain fields, and each accessor takes an
explicit `lockOk : Bool` modelling whether the `lock()` call succeeded
(the `Ok`/`Err` result of acquiring the mutex).  `f32` values are
modelled as rationals `ℚ`; the decode formula `(raw - 10) / 1550.0`
clamped to `[0,1]` is exact at every boundary the claims mention
(`raw ≤ 10 ↦ 0`, `raw = 65535 ↦ 1`), so the rational model agrees with
the float code at those points.

The background threads (`hid_thread` and `start_webhid_bridge`) are
embedded as an event-driven transition system: each blocking call
(HID enumeration, TCP bind, accept, WebSocket handshake, frame read)
consumes one environment `Event`, and the straight-line code between
two blocking calls becomes the list of `Act`s that one `step` emits
(status writes, active-flag writes, sleeps, decoder calls).
-/

/-- The constant `ANALOG_DEADZONE: u16 = 10` from lib.rs. -/
def ANALOG_DEADZONE : ℕ := 10

/-- The constant `ANALOG_MAX: f32 = 1550.0` from lib.rs. -/
def ANALOG_MAX : ℚ := 1550

/-- The struct `AnalogKeyboard` from lib.rs: vid/pid, the 256-slot value array,
the active flag and the status string.  The Rust field type
`[f32; 256]` fixes the length at 256; here that is `Fin 256 → ℚ`. -/
structure AnalogKeyboard where
  vid : ℕ
  pid : ℕ
  values : Fin 256 → ℚ
  active : Bool
  status : String

/-- Constructor `AnalogKeyboard::new(vid, pid)`. -/
def AnalogKeyboard.new (vid pid : ℕ) : AnalogKeyboard :=
  { vid := vid
    pid := pid
    values := fun _ => 0
    active := false
    status := "Starting..." }

/-- Accessor `AnalogKeyboard::values`: snapshot of all 256 values;
`unwrap_or([0.0; 256])` when the lock is poisoned. -/
def AnalogKeyboard.values_snapshot (kb : AnalogKeyboard) (lockOk : Bool) :
    Fin 256 → ℚ :=
  if lockOk then kb.values else fun _ => 0

/-- Accessor `AnalogKeyboard::value(scancode)`: single entry; `unwrap_or(0.0)`
when the lock is poisoned. -/
def AnalogKeyboard.value (kb : AnalogKeyboard) (lockOk : Bool)
    (scancode : Fin 256) : ℚ :=
  if lockOk then kb.values scancode else 0

/-- Setter `AnalogKeyboard::set_values(vals)`: overwrites the entire array when
the lock is healthy (`if let Ok(mut v) = self.values.lock()`); does
nothing otherwise.  The Rust code copies `vals` verbatim, with no
clamping. -/
def AnalogKeyboard.set_values (kb : AnalogKeyboard) (lockOk : Bool)
    (vals : Fin 256 → ℚ) : AnalogKeyboard :=
  if lockOk then { kb with values := vals } else kb

/-- Accessor `AnalogKeyboard::is_active`: `unwrap_or(false)` on lock failure. -/
def AnalogKeyboard.is_active (kb : AnalogKeyboard) (lockOk : Bool) : Bool :=
  if lockOk then kb.active else false

/-- Accessor `AnalogKeyboard::status`: `unwrap_or_default()` (the empty string)
on lock failure. -/
def AnalogKeyboard.status_read (kb : AnalogKeyboard) (lockOk : Bool) : String :=
  if lockOk then kb.status else ""

/-- The index `key_idx = data[3] as usize` in `parse_analog_input` (out-of-bounds
reads cannot occur: the function returns first unless `data.len() >= 6`;
`getD` with default `0` is the in-bounds read in that case). -/
def keyIdxOf (data : List (Fin 256)) : ℕ :=
  (data.getD 3 0).val

/-- The value `raw = ((data[4] as u16) << 8) | (data[5] as u16)` in
`parse_analog_input`: big-endian 16-bit value; both operands are below
256, so shift-or is exactly `hi * 256 + lo` with no overflow. -/
def rawOf (data : List (Fin 256)) : ℕ :=
  (data.getD 4 0).val * 256 + (data.getD 5 0).val

/-- Rust `x.clamp(lo, hi)`: `lo` if `x < lo`, `hi` if `x > hi`,
else `x` itself. -/
def clampQ (x lo hi : ℚ) : ℚ :=
  if x < lo then lo else if x > hi then hi else x

/-- The normalized value `parse_analog_input` computes from `raw`:
`0.0` inside the deadzone, else `((raw - ANALOG_DEADZONE) as f32 /
ANALOG_MAX).clamp(0.0, 1.0)`. -/
def normalizeRaw (raw : ℕ) : ℚ :=
  if raw ≤ ANALOG_DEADZONE then 0
  else clampQ (((raw - ANALOG_DEADZONE : ℕ) : ℚ) / ANALOG_MAX) 0 1

/-- The decoder `parse_analog_input(data, kb)` from lib.rs: discard unless the
payload has at least 6 bytes and starts with the report tag `0xA0`;
otherwise write the normalized value into `values[key_idx]` under the
`key_idx < 256` guard.  (The Rust `let Ok(mut tgt) = kb.values.lock()
else return` is modelled as a healthy lock: the bridge thread is the
only writer and cannot observe its own poisoning.) -/
def parse_analog_input (data : List (Fin 256)) (kb : AnalogKeyboard) :
    AnalogKeyboard :=
  if data.length < 6 ∨ data.getD 0 0 ≠ 0xA0 then kb
  else
    let value : ℚ := normalizeRaw (rawOf data)
    if h : keyIdxOf data < 256 then
      { kb with values := Function.update kb.values ⟨keyIdxOf data, h⟩ value }
    else kb

/-- The count recomputed after each decode in the session loop:
`t.iter().filter(|&&v| v > 0.01).count()`. -/
def countPressed (v : Fin 256 → ℚ) : ℕ :=
  (Finset.univ.filter fun i => (1 : ℚ) / 100 < v i).card

/-- One observable effect of the bridge/watcher thread between two
blocking calls.  `setStatus` is the helper `set_status` from lib.rs:
it writes the status field and emits the log line
`log::info!("[HID] {msg}")`.  `writeStatusRaw` is the inline
`*m = format!(...)` in the session loop, which writes the field with
no log line.  `sleepMs` is `thread::sleep`; `decode` is the call to
`parse_analog_input`. -/
inductive Act where
  | setStatus (msg : String)
  | writeStatusRaw (msg : String)
  | setActive (b : Bool)
  | sleepMs (ms : ℕ)
  | decode (payload : List (Fin 256))
deriving DecidableEq

/-- The status string an action writes, if any. -/
def Act.statusText : Act → Option String
  | .setStatus m => some m
  | .writeStatusRaw m => some m
  | _ => none

/-- Whether the action emits a log line to the observability sink
(only `set_status` does: `log::info!("[HID] {msg}")`). -/
def Act.emitsLog : Act → Bool
  | .setStatus _ => true
  | _ => false

/-- Effect of one action on the shared state (mutex writes by the
bridge thread; sleeping changes nothing). -/
def applyAction (kb : AnalogKeyboard) : Act → AnalogKeyboard
  | .setStatus m => { kb with status := m }
  | .writeStatusRaw m => { kb with status := m }
  | .setActive b => { kb with active := b }
  | .sleepMs _ => kb
  | .decode payload => parse_analog_input payload kb

/-- Control location of the bridge/watcher thread: each location is a
blocking call the thread is suspended at.
  * `searching`   — `hid_thread` about to enumerate HID devices;
  * `bindHttp`    — `start_webhid_bridge` about to bind the HTTP listener;
  * `bindWs`      — about to bind the WebSocket listener;
  * `awaitAccept` — top of the outer loop, polling `ws_listener.accept()`;
  * `handshake`   — `tungstenite::accept` on the accepted stream;
  * `session`     — the frame-read loop, blocked in `websocket.read()`. -/
inductive Loc where
  | searching
  | bindHttp
  | bindWs
  | awaitAccept
  | handshake
  | session
deriving DecidableEq

/-- Result of one `websocket.read()`: a binary frame with its bytes, a
close frame, a read error, or any other message kind (the `_ => {}`
arm). -/
inductive WsMsg where
  | binary (data : List (Fin 256))
  | close
  | readErr
  | other
deriving DecidableEq

/-- The environment's answer to the blocking call at the current
location: HID enumeration outcome, bind outcomes (`some e` is the OS
error description `e`), accept outcome, handshake outcome, or one
WebSocket read. -/
inductive Event where
  | enumerate (found : Bool)
  | httpBindRes (err : Option String)
  | wsBindRes (err : Option String) (url : String)
  | acceptRes (ok : Bool)
  | handshakeRes (ok : Bool)
  | wsRead (m : WsMsg)
deriving DecidableEq

/-- Full state of the bridge pipeline: the shared keyboard state, the
control location, and the session-local `got_analog` flag. -/
structure BState where
  kb : AnalogKeyboard
  loc : Loc
  got_analog : Bool

/-- The straight-line code run after the environment answers the
blocking call at `s.loc`: next location, new `got_analog`, and the
emitted actions, read directly off `hid_thread` and
`start_webhid_bridge` in lib.rs.  An event that cannot answer the
current location's call stutters. -/
def stepParts (s : BState) (e : Event) : Loc × Bool × List Act :=
  match s.loc, e with
  | .searching, .enumerate false =>
      (.searching, s.got_analog,
        [.setStatus "Keyboard not found - plug it in", .sleepMs 2000])
  | .searching, .enumerate true =>
      (.bindHttp, s.got_analog,
        [.setStatus "Keyboard detected - launching Chrome bridge..."])
  | .bindHttp, .httpBindRes (some e) =>
      -- bind error: status, return to hid_thread, which sleeps 2 s and loops
      (.searching, s.got_analog,
        [.setStatus ("HTTP bind: " ++ e), .sleepMs 2000])
  | .bindHttp, .httpBindRes none =>
      (.bindWs, s.got_analog, [])
  | .bindWs, .wsBindRes (some e) _ =>
      (.searching, s.got_analog,
        [.setStatus ("WS bind: " ++ e), .sleepMs 2000])
  | .bindWs, .wsBindRes none url =>
      -- both binds succeeded: announce the URL, then enter the outer
      -- loop, whose top publishes "Waiting..." and clears `active`
      (.awaitAccept, s.got_analog,
        [.setStatus ("Open Chrome -> " ++ url),
         .setStatus "Waiting for Chrome connection...", .setActive false])
  | .awaitAccept, .acceptRes false =>
      (.awaitAccept, s.got_analog, [.sleepMs 100])
  | .awaitAccept, .acceptRes true =>
      (.handshake, s.got_analog, [])
  | .handshake, .handshakeRes false =>
      -- `continue`: back to the top of the outer loop
      (.awaitAccept, s.got_analog,
        [.setStatus "Waiting for Chrome connection...", .setActive false])
  | .handshake, .handshakeRes true =>
      -- session starts with `let mut got_analog = false`
      (.session, false,
        [.setStatus "Chrome connected - click Connect in browser"])
  | .session, .wsRead (.binary data) =>
      if data.length < 3 then (.session, s.got_analog, [])
      else if data.getD 0 0 = 0x03 then
        let firstActs : List Act :=
          if s.got_analog then []
          else [.setActive true, .setStatus "Analog active!"]
        let payload := data.drop 2
        let kb1 := (firstActs ++ ([.decode payload] : List Act)).foldl applyAction s.kb
        let pressed := countPressed kb1.values
        (.session, true,
          firstActs ++
            [.decode payload,
             .writeStatusRaw ("Analog active! (" ++ toString pressed ++ " keys)")])
      else (.session, s.got_analog, [])
  | .session, .wsRead .close =>
      -- loop exit: clear `active`, announce disconnect, sleep 500 ms,
      -- then the outer loop's next iteration publishes "Waiting..."
      (.awaitAccept, s.got_analog,
        [.setActive false, .setStatus "Chrome disconnected - reconnecting...",
         .sleepMs 500,
         .setStatus "Waiting for Chrome connection...", .setActive false])
  | .session, .wsRead .readErr =>
      (.awaitAccept, s.got_analog,
        [.setActive false, .setStatus "Chrome disconnected - reconnecting...",
         .sleepMs 500,
         .setStatus "Waiting for Chrome connection...", .setActive false])
  | .session, .wsRead .other =>
      (.session, s.got_analog, [])
  | l, _ => (l, s.got_analog, [])

/-- One transition of the pipeline: run the straight-line code chosen
by `stepParts` and apply its actions to the shared state. -/
def step (s : BState) (e : Event) : BState × List Act :=
  let p := stepParts s e
  (⟨p.2.2.foldl applyAction s.kb, p.1, p.2.1⟩, p.2.2)

/-- The pipeline's initial state: the state built by
`AnalogKeyboard::new`, the watcher at the top of its search loop. -/
def initState (vid pid : ℕ) : BState :=
  ⟨AnalogKeyboard.new vid pid, .searching, false⟩

/-- States the bridge pipeline can reach from the initial state. -/
inductive Reachable (vid pid : ℕ) : BState → Prop where
  | init : Reachable vid pid (initState vid pid)
  | next (s : BState) (e : Event) :
      Reachable vid pid s → Reachable vid pid (step s e).1

/-- Every entry of the value array lies in `[0, 1]`. -/
def valuesInRange (kb : AnalogKeyboard) : Prop :=
  ∀ i : Fin 256, 0 ≤ kb.values i ∧ kb.values i ≤ 1

/-- The active flag implies an ongoing session that has seen at least
one analog frame. -/
def ActiveInv (s : BState) : Prop :=
  s.kb.active = true → s.loc = Loc.session ∧ s.got_analog = true

/-! ## General lemmas about the decoder and the shared state -/

lemma keyIdxOf_lt (data : List (Fin 256)) : keyIdxOf data < 256 :=
  (data.getD 3 0).isLt

lemma normalizeRaw_deadzone (raw : ℕ) (h : raw ≤ ANALOG_DEADZONE) :
    normalizeRaw raw = 0 := by
  simp [normalizeRaw, h]

lemma normalizeRaw_ten : normalizeRaw 10 = 0 := by
  norm_num [normalizeRaw, ANALOG_DEADZONE]

lemma normalizeRaw_max : normalizeRaw 65535 = 1 := by
  norm_num [normalizeRaw, clampQ, ANALOG_DEADZONE, ANALOG_MAX]

lemma parse_valid (data : List (Fin 256)) (kb : AnalogKeyboard)
    (hlen : 6 ≤ data.length) (htag : data.getD 0 0 = 0xA0) :
    parse_analog_input data kb =
      { kb with values := (Function.update kb.values
          ⟨keyIdxOf data, keyIdxOf_lt data⟩ (normalizeRaw (rawOf data))) } := by
  unfold parse_analog_input
  rw [if_neg, dif_pos (keyIdxOf_lt data)]
  push_neg
  exact ⟨hlen, htag⟩

lemma parse_invalid (data : List (Fin 256)) (kb : AnalogKeyboard)
    (h : data.length < 6 ∨ data.getD 0 0 ≠ 0xA0) :
    parse_analog_input data kb = kb := by
  unfold parse_analog_input
  rw [if_pos h]

lemma parse_vid (data : List (Fin 256)) (kb : AnalogKeyboard) :
    (parse_analog_input data kb).vid = kb.vid := by
  unfold parse_analog_input
  split
  · rfl
  · split <;> rfl

lemma parse_pid (data : List (Fin 256)) (kb : AnalogKeyboard) :
    (parse_analog_input data kb).pid = kb.pid := by
  unfold parse_analog_input
  split
  · rfl
  · split <;> rfl

lemma parse_active (data : List (Fin 256)) (kb : AnalogKeyboard) :
    (parse_analog_input data kb).active = kb.active := by
  unfold parse_analog_input
  split
  · rfl
  · split <;> rfl

lemma parse_status (data : List (Fin 256)) (kb : AnalogKeyboard) :
    (parse_analog_input data kb).status = kb.status := by
  unfold parse_analog_input
  split
  · rfl
  · split <;> rfl

lemma normalizeRaw_nonneg (raw : ℕ) : 0 ≤ normalizeRaw raw := by
  unfold normalizeRaw clampQ
  split_ifs with h1 h2 h3
  · norm_num
  · norm_num
  · norm_num
  · exact le_of_not_lt h2

lemma normalizeRaw_le_one (raw : ℕ) : normalizeRaw raw ≤ 1 := by
  unfold normalizeRaw clampQ
  split_ifs with h1 h2 h3
  · norm_num
  · norm_num
  · norm_num
  · exact le_of_not_lt h3

lemma countPressed_all_zero : countPressed (fun _ => 0) = 0 := by
  unfold countPressed
  rw [Finset.filter_false_of_mem (fun i _ => by norm_num), Finset.card_empty]

lemma countPressed_new (vid pid : ℕ) :
    countPressed (AnalogKeyboard.new vid pid).values = 0 :=
  countPressed_all_zero

lemma parse_preserves_range (data : List (Fin 256)) (kb : AnalogKeyboard)
    (h : valuesInRange kb) : valuesInRange (parse_analog_input data kb) := by
  intro i
  by_cases hv : data.length < 6 ∨ data.getD 0 0 ≠ 0xA0
  · rw [parse_invalid _ _ hv]
    exact h i
  · push_neg at hv
    rw [parse_valid _ _ hv.1 hv.2]
    dsimp only
    rw [Function.update_apply]
    split_ifs
    · exact ⟨normalizeRaw_nonneg _, normalizeRaw_le_one _⟩
    · exact h i

lemma new_values_range (vid pid : ℕ) :
    valuesInRange (AnalogKeyboard.new vid pid) := by
  intro i
  refine ⟨le_refl 0, ?_⟩
  show (0 : ℚ) ≤ 1
  norm_num

lemma set_values_range (kb : AnalogKeyboard) (lockOk : Bool)
    (vals : Fin 256 → ℚ) (hv : ∀ i : Fin 256, 0 ≤ vals i ∧ vals i ≤ 1)
    (h : valuesInRange kb) : valuesInRange (kb.set_values lockOk vals) := by
  unfold AnalogKeyboard.set_values
  split
  · exact hv
  · exact h

/-! ## Lemmas about the bridge transition system -/

lemma step_ActiveInv (s : BState) (e : Event) (h : ActiveInv s) :
    ActiveInv (step s e).1 := by
  unfold ActiveInv at h ⊢
  rcases s with ⟨kb, loc, g⟩
  rcases e with ⟨_|_⟩ | ⟨_|err⟩ | ⟨_|err, url⟩ | ⟨_|_⟩ | ⟨_|_⟩ | ⟨m⟩ <;>
    cases loc <;>
    try simp_all [step, stepParts, applyAction]
  rcases m with ⟨data⟩ | _ | _ | _
  · by_cases h3 : data.length < 3
    · simp_all [step, stepParts, applyAction, h3]
    · have h3' : ¬ data.length < 3 := h3
      by_cases htag : data.getD 0 0 = (3 : Fin 256)
      · simp_all [step, stepParts, applyAction, if_neg h3', htag, List.getD]
      · simp_all [step, stepParts, applyAction, if_neg h3', htag, List.getD]
  · simp_all [step, stepParts, applyAction]
  · simp_all [step, stepParts, applyAction]
  · simp_all [step, stepParts, applyAction]

lemma reachable_ActiveInv (vid pid : ℕ) (s : BState)
    (h : Reachable vid pid s) : ActiveInv s := by
  induction h with
  | init => intro hact; simp [initState, AnalogKeyboard.new] at hact
  | next s e _ ih => exact step_ActiveInv s e ih

lemma step_active_true (s : BState) (e : Event)
    (h0 : s.kb.active = false)
    (h1 : (step s e).1.kb.active = true) :
    ∃ data : List (Fin 256), e = .wsRead (.binary data) ∧ s.loc = Loc.session ∧
      s.got_analog = false ∧ 3 ≤ data.length ∧ data.getD 0 0 = 0x03 := by
  rcases s with ⟨kb, loc, g⟩
  rcases e with ⟨_|_⟩ | ⟨_|err⟩ | ⟨_|err, url⟩ | ⟨_|_⟩ | ⟨_|_⟩ | ⟨m⟩ <;>
    cases loc <;>
    try (exfalso; simp_all [step, stepParts, applyAction]; done)
  rcases m with ⟨data⟩ | _ | _ | _
  · by_cases h3 : data.length < 3
    · exfalso; simp_all [step, stepParts, applyAction, h3]
    · have h3' : ¬ data.length < 3 := h3
      by_cases htag : data.getD 0 0 = (3 : Fin 256)
      · cases g
        · exact ⟨data, rfl, rfl, rfl, Nat.not_lt.mp h3', htag⟩
        · exfalso
          simp_all [step, stepParts, applyAction, if_neg h3', htag, List.getD,
            parse_active]
      · exfalso
        simp_all [step, stepParts, applyAction, if_neg h3', htag, List.getD]
  · exfalso; simp_all [step, stepParts, applyAction]
  · exfalso; simp_all [step, stepParts, applyAction]
  · exfalso; simp_all [step, stepParts, applyAction]

lemma applyAction_vid (kb : AnalogKeyboard) (a : Act) :
    (applyAction kb a).vid = kb.vid := by
  cases a <;> simp [applyAction, parse_vid]

lemma applyAction_pid (kb : AnalogKeyboard) (a : Act) :
    (applyAction kb a).pid = kb.pid := by
  cases a <;> simp [applyAction, parse_pid]

lemma foldl_applyAction_vid (as : List Act) (kb : AnalogKeyboard) :
    (as.foldl applyAction kb).vid = kb.vid := by
  induction as generalizing kb with
  | nil => rfl
  | cons a as ih => rw [List.foldl_cons, ih, applyAction_vid]

lemma foldl_applyAction_pid (as : List Act) (kb : AnalogKeyboard) :
    (as.foldl applyAction kb).pid = kb.pid := by
  induction as generalizing kb with
  | nil => rfl
  | cons a as ih => rw [List.foldl_cons, ih, applyAction_pid]

lemma step_vid (s : BState) (e : Event) : (step s e).1.kb.vid = s.kb.vid :=
  foldl_applyAction_vid _ _

lemma step_pid (s : BState) (e : Event) : (step s e).1.kb.pid = s.kb.pid :=
  foldl_applyAction_pid _ _

lemma set_values_vid (kb : AnalogKeyboard) (lockOk : Bool) (vals : Fin 256 → ℚ) :
    (kb.set_values lockOk vals).vid = kb.vid := by
  unfold AnalogKeyboard.set_values
  split <;> rfl

lemma set_values_pid (kb : AnalogKeyboard) (lockOk : Bool) (vals : Fin 256 → ℚ) :
    (kb.set_values lockOk vals).pid = kb.pid := by
  unfold AnalogKeyboard.set_values
  split <;> rfl

lemma sessionEnd_acts (kb : AnalogKeyboard) (g : Bool) (m : WsMsg)
    (hm : m = WsMsg.close ∨ m = WsMsg.readErr) :
    (step ⟨kb, Loc.session, g⟩ (Event.wsRead m)).2 =
      [Act.setActive false,
       Act.setStatus "Chrome disconnected - reconnecting...",
       Act.sleepMs 500,
       Act.setStatus "Waiting for Chrome connection...",
       Act.setActive false] ∧
    (step ⟨kb, Loc.session, g⟩ (Event.wsRead m)).1.loc = Loc.awaitAccept ∧
    (step ⟨kb, Loc.session, g⟩ (Event.wsRead m)).1.kb.active = false := by
  rcases hm with rfl | rfl <;> exact ⟨rfl, rfl, rfl⟩

lemma step_status_logged (s : BState) (e : Event) (a : Act)
    (hmem : a ∈ (step s e).2) (hw : a.statusText.isSome) :
    a.emitsLog = true ∨
      ∃ n : ℕ, a = .writeStatusRaw ("Analog active! (" ++ toString n ++ " keys)") := by
  rcases s with ⟨kb, loc, g⟩
  rcases e with ⟨_|_⟩ | ⟨_|err⟩ | ⟨_|err, url⟩ | ⟨_|_⟩ | ⟨_|_⟩ | ⟨m⟩ <;>
    cases loc <;>
    try (simp only [step, stepParts] at hmem
         fin_cases hmem <;> simp_all [Act.statusText, Act.emitsLog]
         done)
  rcases m with ⟨data⟩ | _ | _ | _
  · by_cases h3 : data.length < 3
    · simp [step, stepParts, h3] at hmem
    · have h3' : ¬ data.length < 3 := h3
      by_cases htag : data.getD 0 0 = (3 : Fin 256)
      · simp only [step, stepParts, if_neg h3', htag, if_pos] at hmem
        cases g <;> simp only [Bool.false_eq_true, if_neg, if_pos] at hmem <;>
          fin_cases hmem <;>
          first
            | exact Or.inr ⟨_, rfl⟩
            | simp_all [Act.statusText, Act.emitsLog]
      · simp only [step, stepParts, if_neg h3', htag] at hmem
        simp at hmem
  · simp [step, stepParts] at hmem
    rcases hmem with rfl | rfl | rfl | rfl | rfl <;>
      simp_all [Act.statusText, Act.emitsLog]
  · simp [step, stepParts] at hmem
    rcases hmem with rfl | rfl | rfl | rfl | rfl <;>
      simp_all [Act.statusText, Act.emitsLog]
  · simp [step, stepParts] at hmem

/-! ## The claims -/

/-- C1: for every payload of length at least 6 whose first byte is
0xA0, the decoder takes `key_index` from the byte at offset 3
(`keyIdxOf`), `raw` as the big-endian 16-bit value of the bytes at
offsets 4 and 5 (`rawOf`), and overwrites `values[key_index]` with 0
when `raw ≤ 10` and with `clamp((raw - 10) / 1550, 0, 1)` otherwise;
the deadzone boundary `raw = 10` yields 0 and `raw = 65535` yields
exactly 1. -/
theorem C1_decoder_valid_payload (data : List (Fin 256)) (kb : AnalogKeyboard)
    (hlen : 6 ≤ data.length) (htag : data.getD 0 0 = 0xA0) :
    parse_analog_input data kb =
      { kb with values := (Function.update kb.values
          ⟨keyIdxOf data, keyIdxOf_lt data⟩ (normalizeRaw (rawOf data))) } ∧
    (∀ raw : ℕ, raw ≤ 10 → normalizeRaw raw = 0) ∧
    (∀ raw : ℕ, 10 < raw →
      normalizeRaw raw = clampQ (((raw - 10 : ℕ) : ℚ) / 1550) 0 1) ∧
    normalizeRaw 10 = 0 ∧ normalizeRaw 65535 = 1 := by
  refine ⟨parse_valid data kb hlen htag, ?_, ?_, normalizeRaw_ten, normalizeRaw_max⟩
  · exact fun raw h => normalizeRaw_deadzone raw h
  · intro raw h
    unfold normalizeRaw
    rw [if_neg (show ¬ raw ≤ ANALOG_DEADZONE from Nat.not_le.mpr h)]
    rfl

/-- Witness for C1 at the payload `[0xA0, 0, 0, 0x10, 0xFF, 0xFF]`
(raw 65535 at key 0x10): the decoded entry is exactly 1. -/
theorem C1_decoder_valid_payload_applied :
    (parse_analog_input [0xA0, 0, 0, 0x10, 0xFF, 0xFF]
        (AnalogKeyboard.new 1 2)).values 0x10 = 1 := by
  have h := C1_decoder_valid_payload [0xA0, 0, 0, 0x10, 0xFF, 0xFF]
    (AnalogKeyboard.new 1 2) (by decide) (by decide)
  rw [h.1]
  dsimp only
  have hidx : (⟨keyIdxOf [0xA0, 0, 0, 0x10, 0xFF, 0xFF],
      keyIdxOf_lt [0xA0, 0, 0, 0x10, 0xFF, 0xFF]⟩ : Fin 256) = 0x10 := by
    apply Fin.ext
    decide
  rw [hidx, Function.update_same]
  exact h.2.2.2.2

/-- C2: any payload shorter than 6 bytes, or whose first byte is not
0xA0, is discarded with no state mutation at all: the decoder returns
the state unchanged, every field included. -/
theorem C2_invalid_payload_discarded (data : List (Fin 256)) (kb : AnalogKeyboard)
    (h : data.length < 6 ∨ data.getD 0 0 ≠ 0xA0) :
    parse_analog_input data kb = kb :=
  parse_invalid data kb h

/-- Witness for C2: a wrong-tag payload of length 6 leaves a fresh
state exactly as it was. -/
theorem C2_invalid_payload_discarded_applied :
    parse_analog_input [1, 0, 0, 4, 3, 0] (AnalogKeyboard.new 0 0) =
      AnalogKeyboard.new 0 0 :=
  C2_invalid_payload_discarded [1, 0, 0, 4, 3, 0] (AnalogKeyboard.new 0 0)
    (Or.inr (by decide))

/-- Counterexample to C3 as stated: `set_values` copies the caller's
sequence verbatim, so applying it to the all-2 sequence puts 2 into
`values[0]`, which is not ≤ 1: the `[0,1]` invariant is not preserved
by `set_values` on an arbitrary caller-supplied sequence. -/
theorem C3_set_values_escapes_range :
    ((AnalogKeyboard.new 0 0).set_values true (fun _ => 2)).values 0 = 2 ∧
    ¬ ((2 : ℚ) ≤ 1) :=
  ⟨rfl, by norm_num⟩

/-- C3 (amended): `values` always has exactly 256 entries (fixed by
its type), every entry lies in `[0,1]` in the state produced by `new`,
and the invariant is preserved by every decoder write; `set_values`
copies the caller's sequence without clamping, so it preserves the
invariant exactly when the supplied entries already lie in `[0,1]`. -/
theorem C3_values_range_invariant (vid pid : ℕ) (data : List (Fin 256))
    (kb kb2 : AnalogKeyboard) (lockOk : Bool) (vals : Fin 256 → ℚ)
    (hkb : valuesInRange kb) (hkb2 : valuesInRange kb2)
    (hvals : ∀ i : Fin 256, 0 ≤ vals i ∧ vals i ≤ 1) :
    valuesInRange (AnalogKeyboard.new vid pid) ∧
    valuesInRange (parse_analog_input data kb) ∧
    valuesInRange (kb2.set_values lockOk vals) :=
  ⟨new_values_range vid pid,
   parse_preserves_range data kb hkb,
   set_values_range kb2 lockOk vals hvals hkb2⟩

/-- Witness for C3 (amended) on a fresh state, a concrete decode and
an in-range `set_values`. -/
theorem C3_values_range_invariant_applied :
    valuesInRange (AnalogKeyboard.new 3 4) ∧
    valuesInRange (parse_analog_input [0xA0, 0, 0, 4, 0xFF, 0xFF]
      (AnalogKeyboard.new 3 4)) ∧
    valuesInRange ((AnalogKeyboard.new 3 4).set_values true (fun _ => 1)) :=
  C3_values_range_invariant 3 4 [0xA0, 0, 0, 4, 0xFF, 0xFF]
    (AnalogKeyboard.new 3 4) (AnalogKeyboard.new 3 4) true (fun _ => 1)
    (new_values_range 3 4) (new_values_range 3 4)
    (fun _ => ⟨by norm_num, le_refl 1⟩)

/-- C4: for every valid analog payload, decoding updates exactly the
entry at `key_index` and leaves every other index untouched, and the
decoder changes nothing else in the state: `active`, `status`, `vid`
and `pid` are unchanged. -/
theorem C4_exactly_one_entry_updated (data : List (Fin 256)) (kb : AnalogKeyboard)
    (hlen : 6 ≤ data.length) (htag : data.getD 0 0 = 0xA0) :
    (parse_analog_input data kb).values ⟨keyIdxOf data, keyIdxOf_lt data⟩ =
      normalizeRaw (rawOf data) ∧
    (∀ j : Fin 256, j.val ≠ keyIdxOf data →
      (parse_analog_input data kb).values j = kb.values j) ∧
    (parse_analog_input data kb).active = kb.active ∧
    (parse_analog_input data kb).status = kb.status ∧
    (parse_analog_input data kb).vid = kb.vid ∧
    (parse_analog_input data kb).pid = kb.pid := by
  refine ⟨?_, ?_, parse_active data kb, parse_status data kb,
    parse_vid data kb, parse_pid data kb⟩
  · rw [parse_valid _ _ hlen htag]
    exact Function.update_same _ _ _
  · intro j hj
    rw [parse_valid _ _ hlen htag]
    dsimp only
    have hne : j ≠ (⟨keyIdxOf data, keyIdxOf_lt data⟩ : Fin 256) :=
      fun hEq => hj (by rw [hEq])
    rw [Function.update_noteq hne]

/-- Witness for C4 at the payload `[0xA0, 0, 0, 4, 3, 0]`: index 5 is
untouched and the active flag is unchanged. -/
theorem C4_exactly_one_entry_updated_applied :
    (parse_analog_input [0xA0, 0, 0, 4, 3, 0] (AnalogKeyboard.new 0 0)).values
        ⟨5, by norm_num⟩ =
      (AnalogKeyboard.new 0 0).values ⟨5, by norm_num⟩ ∧
    (parse_analog_input [0xA0, 0, 0, 4, 3, 0] (AnalogKeyboard.new 0 0)).active =
      (AnalogKeyboard.new 0 0).active := by
  have h := C4_exactly_one_entry_updated [0xA0, 0, 0, 4, 3, 0]
    (AnalogKeyboard.new 0 0) (by decide) (by decide)
  exact ⟨h.2.1 ⟨5, by norm_num⟩ (by decide), h.2.2.1⟩

/-- Counterexample to C5 as stated: after a session's read loop exits
(close frame), the bridge does not return control to `hid_thread`; it
re-enters its own accept loop (`awaitAccept`), and no 2-second watcher
delay occurs in that transition. -/
theorem C5_session_end_no_return_to_watcher :
    (step ⟨AnalogKeyboard.new 0 0, Loc.session, true⟩
        (Event.wsRead WsMsg.close)).1.loc = Loc.awaitAccept ∧
    Loc.awaitAccept ≠ Loc.searching ∧
    Act.sleepMs 2000 ∉
      (step ⟨AnalogKeyboard.new 0 0, Loc.session, true⟩
        (Event.wsRead WsMsg.close)).2 :=
  ⟨rfl, by decide, by decide⟩

/-- C5 (amended): when a session's frame-read loop exits (close frame
or read error), the bridge sets active to false, publishes
"Chrome disconnected - reconnecting...", pauses 500 ms, and re-enters
its own accept loop ("Waiting for Chrome connection..."); the
accept-and-session routine returns to DeviceWatcher only when a
listener bind fails, and then the watcher waits 2 s and transitions
back to Searching. -/
theorem C5_session_end_behavior (kb : AnalogKeyboard) (g : Bool) (m : WsMsg)
    (hm : m = WsMsg.close ∨ m = WsMsg.readErr) :
    ((step ⟨kb, Loc.session, g⟩ (Event.wsRead m)).2 =
      [Act.setActive false,
       Act.setStatus "Chrome disconnected - reconnecting...",
       Act.sleepMs 500,
       Act.setStatus "Waiting for Chrome connection...",
       Act.setActive false] ∧
     (step ⟨kb, Loc.session, g⟩ (Event.wsRead m)).1.loc = Loc.awaitAccept ∧
     (step ⟨kb, Loc.session, g⟩ (Event.wsRead m)).1.kb.active = false) ∧
    (∀ (kb2 : AnalogKeyboard) (g2 : Bool) (err : String),
      (step ⟨kb2, Loc.bindHttp, g2⟩ (Event.httpBindRes (some err))).1.loc =
        Loc.searching ∧
      Act.sleepMs 2000 ∈
        (step ⟨kb2, Loc.bindHttp, g2⟩ (Event.httpBindRes (some err))).2) ∧
    (∀ (kb2 : AnalogKeyboard) (g2 : Bool) (err url : String),
      (step ⟨kb2, Loc.bindWs, g2⟩ (Event.wsBindRes (some err) url)).1.loc =
        Loc.searching ∧
      Act.sleepMs 2000 ∈
        (step ⟨kb2, Loc.bindWs, g2⟩ (Event.wsBindRes (some err) url)).2) := by
  refine ⟨sessionEnd_acts kb g m hm, ?_, ?_⟩
  · intro kb2 g2 err
    exact ⟨rfl, by simp [step, stepParts]⟩
  · intro kb2 g2 err url
    exact ⟨rfl, by simp [step, stepParts]⟩

/-- Witness for C5 (amended) on a concrete session end and a concrete
HTTP bind failure. -/
theorem C5_session_end_behavior_applied :
    (step ⟨AnalogKeyboard.new 0 0, Loc.session, true⟩
        (Event.wsRead WsMsg.close)).1.kb.active = false ∧
    (step ⟨AnalogKeyboard.new 0 0, Loc.bindHttp, false⟩
        (Event.httpBindRes (some "address in use"))).1.loc = Loc.searching := by
  have h := C5_session_end_behavior (AnalogKeyboard.new 0 0) true WsMsg.close
    (Or.inl rfl)
  exact ⟨h.1.2.2, (h.2.1 (AnalogKeyboard.new 0 0) false "address in use").1⟩

/-- C6: in every reachable state of the bridge pipeline, the active
flag is true only during a session that has forwarded at least one
analog (type 0x03) frame to the decoder: it is false initially, it is
cleared when the outer accept loop is entered (successful binds,
handshake failure) and when a session ends, and a step can turn it
from false to true only on a session's first analog data frame. -/
theorem C6_active_only_in_live_session (vid pid : ℕ) (s s2 : BState) (e : Event)
    (hr : Reachable vid pid s)
    (h0 : s2.kb.active = false)
    (h1 : (step s2 e).1.kb.active = true) :
    (initState vid pid).kb.active = false ∧
    (s.kb.active = true → s.loc = Loc.session ∧ s.got_analog = true) ∧
    (∃ data : List (Fin 256), e = Event.wsRead (WsMsg.binary data) ∧
      s2.loc = Loc.session ∧ s2.got_analog = false ∧ 3 ≤ data.length ∧
      data.getD 0 0 = 0x03) ∧
    (∀ (kb : AnalogKeyboard) (g : Bool) (url : String),
      (step ⟨kb, Loc.bindWs, g⟩ (Event.wsBindRes none url)).1.kb.active = false) ∧
    (∀ (kb : AnalogKeyboard) (g : Bool),
      (step ⟨kb, Loc.handshake, g⟩ (Event.handshakeRes false)).1.kb.active = false) ∧
    (∀ (kb : AnalogKeyboard) (g : Bool),
      (step ⟨kb, Loc.session, g⟩ (Event.wsRead WsMsg.close)).1.kb.active = false) :=
  ⟨rfl, reachable_ActiveInv vid pid s hr, step_active_true s2 e h0 h1,
   fun _ _ _ => rfl, fun _ _ => rfl, fun _ _ => rfl⟩

/-- Witness for C6 at the initial state and a concrete first analog
frame. -/
theorem C6_active_only_in_live_session_applied :
    (initState 0 0).kb.active = false ∧
    ((initState 0 0).kb.active = true →
      (initState 0 0).loc = Loc.session ∧ (initState 0 0).got_analog = true) := by
  have hact : (step ⟨AnalogKeyboard.new 0 0, Loc.session, false⟩
      (Event.wsRead (WsMsg.binary [3, 0, 0xA0, 0, 0, 4, 3, 0]))).1.kb.active =
      true := rfl
  have h := C6_active_only_in_live_session 0 0 (initState 0 0)
    ⟨AnalogKeyboard.new 0 0, Loc.session, false⟩
    (Event.wsRead (WsMsg.binary [3, 0, 0xA0, 0, 0, 4, 3, 0]))
    Reachable.init rfl hact
  exact ⟨h.1, h.2.1⟩

/-- Counterexample to C7 as stated: the per-frame key-count status
update in the session loop writes the status field directly, with no
log line, so not every status change is emitted to the observability
sink. -/
theorem C7_count_status_not_logged :
    (step ⟨AnalogKeyboard.new 0 0, Loc.session, true⟩
        (Event.wsRead (WsMsg.binary [3, 0, 1]))).2 =
      [Act.decode [1], Act.writeStatusRaw "Analog active! (0 keys)"] ∧
    (Act.writeStatusRaw "Analog active! (0 keys)").statusText =
      some "Analog active! (0 keys)" ∧
    (Act.writeStatusRaw "Analog active! (0 keys)").emitsLog = false := by
  refine ⟨?_, rfl, rfl⟩
  have h : (step ⟨AnalogKeyboard.new 0 0, Loc.session, true⟩
      (Event.wsRead (WsMsg.binary [3, 0, 1]))).2 =
      [Act.decode [1],
       Act.writeStatusRaw ("Analog active! (" ++
         toString (countPressed (AnalogKeyboard.new 0 0).values) ++ " keys)")] := rfl
  rw [h, countPressed_new]
  rfl

/-- C7 (amended): every status change performed by the pipeline is
emitted to the observability sink at the moment it is set, except the
per-frame "Analog active! (<count> keys)" update, which is the only
status write that produces no log line. -/
theorem C7_status_changes_logged_except_count (s : BState) (e : Event) (a : Act)
    (hmem : a ∈ (step s e).2) (hw : a.statusText.isSome) :
    a.emitsLog = true ∨
      ∃ n : ℕ,
        a = Act.writeStatusRaw ("Analog active! (" ++ toString n ++ " keys)") :=
  step_status_logged s e a hmem hw

/-- Witness for C7 (amended) at the watcher's "not found" transition. -/
theorem C7_status_changes_logged_except_count_applied :
    (Act.setStatus "Keyboard not found - plug it in").emitsLog = true ∨
      ∃ n : ℕ,
        Act.setStatus "Keyboard not found - plug it in" =
          Act.writeStatusRaw ("Analog active! (" ++ toString n ++ " keys)") :=
  C7_status_changes_logged_except_count (initState 0 0) (Event.enumerate false)
    (Act.setStatus "Keyboard not found - plug it in")
    (by simp [step, stepParts, initState]) rfl

/-- C8: if acquiring the guarding lock fails, every read accessor
returns its safe default: `values()` returns all zeros, `value(code)`
returns 0, `is_active()` returns false, and `status()` returns the
empty string. -/
theorem C8_lock_failure_safe_defaults (kb : AnalogKeyboard) (c : Fin 256) :
    kb.values_snapshot false = (fun _ => 0) ∧
    kb.value false c = 0 ∧
    kb.is_active false = false ∧
    kb.status_read false = "" :=
  ⟨rfl, rfl, rfl, rfl⟩

/-- C9: `new(vid, pid)` returns a state whose 256 values are all zero,
whose active flag reads false, whose status reads exactly
"Starting...", and whose `vid`/`pid` are the constructor arguments;
no operation of the shared state or of the bridge pipeline ever
changes `vid` or `pid`. -/
theorem C9_new_initial_state (vid pid : ℕ) :
    (∀ i : Fin 256, (AnalogKeyboard.new vid pid).values_snapshot true i = 0) ∧
    (AnalogKeyboard.new vid pid).is_active true = false ∧
    (AnalogKeyboard.new vid pid).status_read true = "Starting..." ∧
    (AnalogKeyboard.new vid pid).vid = vid ∧
    (AnalogKeyboard.new vid pid).pid = pid ∧
    (∀ (kb : AnalogKeyboard) (lockOk : Bool) (vals : Fin 256 → ℚ),
      (kb.set_values lockOk vals).vid = kb.vid ∧
      (kb.set_values lockOk vals).pid = kb.pid) ∧
    (∀ (data : List (Fin 256)) (kb : AnalogKeyboard),
      (parse_analog_input data kb).vid = kb.vid ∧
      (parse_analog_input data kb).pid = kb.pid) ∧
    (∀ (s : BState) (e : Event),
      (step s e).1.kb.vid = s.kb.vid ∧ (step s e).1.kb.pid = s.kb.pid) :=
  ⟨fun _ => rfl, rfl, rfl, rfl, rfl,
   fun kb lockOk vals => ⟨set_values_vid kb lockOk vals, set_values_pid kb lockOk vals⟩,
   fun data kb => ⟨parse_vid data kb, parse_pid data kb⟩,
   fun s e => ⟨step_vid s e, step_pid s e⟩⟩

/-- C10: all value-array indexing is total: with a healthy lock,
`value(c)` equals the entry at `c` of the `values()` snapshot for
every state and every 8-bit scancode, and the decoder's key index is a
single payload byte, so its `key_idx < 256` guard always holds. -/
theorem C10_indexing_in_bounds :
    (∀ (kb : AnalogKeyboard) (c : Fin 256),
      kb.value true c = kb.values_snapshot true c) ∧
    (∀ data : List (Fin 256), keyIdxOf data < 256) :=
  ⟨fun _ _ => rfl, keyIdxOf_lt⟩
